/-
  Verification development for the lunasvg Canvas rendering backend
  (canvas.cpp: Canvas creation, fill/stroke state setup, mask, luminance,
  and the ad-hoc text rasterization blit).

  Conventions of the shallow embedding:
  * C `double` values are modelled as `ℚ`.
  * Machine integers are modelled as `Int`/`Nat`; 8-bit and 32-bit
    quantities are `Nat` with explicit masking where the code masks.
  * The pixel surface is modelled as a grid of packed 32-bit words
    `Nat → Nat → Nat` (row, column), the word at row `y`, column `x`
    living at byte offset `stride*y + 4*x` (rows are assumed
    non-overlapping, `4*width ≤ stride`, per the surface glossary);
    the text blit, which addresses raw bytes, is modelled separately
    on a flat byte buffer `Nat → Nat`.
  * In-place pixel loops become `List.foldl` over `List.range`,
    mirroring the source `for` loops, with pointwise characterization
    lemmas proved about them.
-/
import Mathlib

namespace LunaSvg

/-- 2×3 affine matrix; field names and order follow `plutovg_matrix_t`
(and lunasvg's `Transform`, which has the same six fields):
`x' = m00*x + m01*y + m02`, `y' = m10*x + m11*y + m12`. -/
structure Matrix where
  m00 : ℚ
  m10 : ℚ
  m01 : ℚ
  m11 : ℚ
  m02 : ℚ
  m12 : ℚ
deriving DecidableEq, Repr

/-- Apply an affine matrix to a point. -/
def Matrix.apply (m : Matrix) (p : ℚ × ℚ) : ℚ × ℚ :=
  (m.m00 * p.1 + m.m01 * p.2 + m.m02, m.m10 * p.1 + m.m11 * p.2 + m.m12)

/-- `plutovg_matrix_init_identity`. -/
def Matrix.identity : Matrix := ⟨1, 0, 0, 1, 0, 0⟩

/-- `plutovg_matrix_init_translate`. -/
def Matrix.translate (tx ty : ℚ) : Matrix := ⟨1, 0, 0, 1, tx, ty⟩

/-- Modelled from the spec: `plutovg_matrix_multiply` (the plutovg matrix
composition primitive is not part of the shown sources).  Spec §3:
composition is by matrix multiplication and "the device transform is
always post-multiplied by the canvas's internal translation so user-space
transforms apply before the canvas offset"; accordingly
`Matrix.multiply a b` is the matrix applying `a` first and `b` second. -/
def Matrix.multiply (a b : Matrix) : Matrix :=
  { m00 := b.m00 * a.m00 + b.m01 * a.m10
    m10 := b.m10 * a.m00 + b.m11 * a.m10
    m01 := b.m00 * a.m01 + b.m01 * a.m11
    m11 := b.m10 * a.m01 + b.m11 * a.m11
    m02 := b.m00 * a.m02 + b.m01 * a.m12 + b.m02
    m12 := b.m10 * a.m02 + b.m11 * a.m12 + b.m12 }

theorem Matrix.multiply_apply (a b : Matrix) (p : ℚ × ℚ) :
    (Matrix.multiply a b).apply p = b.apply (a.apply p) := by
  simp only [Matrix.apply, Matrix.multiply, Prod.mk.injEq]
  constructor <;> ring

/-- `plutovg_rect_t` / lunasvg `Rect`: (x, y, w, h). -/
structure Rect where
  x : ℚ
  y : ℚ
  w : ℚ
  h : ℚ
deriving DecidableEq, Repr

/-- `lunasvg::Transform` (same six fields as `Matrix`): `to_plutovg_matrix`
copies them across via `plutovg_matrix_init(&matrix, m00, m10, m01, m11,
m02, m12)`. -/
def to_plutovg_matrix (transform : Matrix) : Matrix :=
  ⟨transform.m00, transform.m10, transform.m01, transform.m11,
   transform.m02, transform.m12⟩

/-! ## Luminance (Canvas::luminance) -/

/-- The per-pixel body of `Canvas::luminance`: extract r (bits 16–23),
g (bits 8–15), b (bits 0–7) from the packed word, compute
`l = (2*r + 3*g + b) / 6` (C unsigned arithmetic: truncating division)
and store `l << 24`. -/
def luminancePixel (pixel : Nat) : Nat :=
  let r := (pixel >>> 16) &&& 0xFF
  let g := (pixel >>> 8) &&& 0xFF
  let b := (pixel >>> 0) &&& 0xFF
  let l := (2 * r + 3 * g + b) / 6
  l <<< 24

/-- The inner `for(x…)` loop of `Canvas::luminance` over one row. -/
def lumRow (width : Nat) (row : Nat → Nat) : Nat → Nat :=
  (List.range width).foldl
    (fun r x => Function.update r x (luminancePixel (r x))) row

/-- The outer `for(y…)` loop of `Canvas::luminance` over the pixel grid. -/
def luminanceRun (width height : Nat) (px : Nat → Nat → Nat) :
    Nat → Nat → Nat :=
  (List.range height).foldl
    (fun g y => Function.update g y (lumRow width (g y))) px

theorem lumRow_apply (width : Nat) (row : Nat → Nat) (x : Nat) :
    lumRow width row x = if x < width then luminancePixel (row x) else row x := by
  induction width generalizing row with
  | zero => simp [lumRow]
  | succ n ih =>
    simp only [lumRow, List.range_succ, List.foldl_append, List.foldl_cons,
      List.foldl_nil]
    rw [show ((List.range n).foldl
        (fun r x => Function.update r x (luminancePixel (r x))) row) = lumRow n row from rfl]
    rcases Nat.lt_trichotomy x n with h | h | h
    · rw [Function.update_noteq (Nat.ne_of_lt h)]
      rw [ih row]
      simp [h, Nat.lt_succ_of_lt h]
    · subst h
      rw [Function.update_same]
      rw [ih row]
      simp [Nat.lt_irrefl, Nat.lt_succ_self]
    · rw [Function.update_noteq (Nat.ne_of_gt h)]
      rw [ih row]
      have h1 : ¬ x < n := Nat.not_lt.mpr (Nat.le_of_lt h)
      have h2 : ¬ x < n + 1 := Nat.not_lt.mpr h
      simp [h1, h2]

theorem luminanceRun_row_of_le (width height : Nat) (px : Nat → Nat → Nat)
    (y : Nat) (hy : height ≤ y) :
    luminanceRun width height px y = px y := by
  induction height generalizing px with
  | zero => simp [luminanceRun]
  | succ n ih =>
    simp only [luminanceRun, List.range_succ, List.foldl_append,
      List.foldl_cons, List.foldl_nil]
    rw [show ((List.range n).foldl
        (fun g y => Function.update g y (lumRow width (g y))) px) = luminanceRun width n px from rfl]
    have hne : y ≠ n := Nat.ne_of_gt (Nat.lt_of_lt_of_le (Nat.lt_succ_self n) hy)
    rw [Function.update_noteq hne]
    exact ih px (Nat.le_of_succ_le hy)

theorem luminanceRun_apply (width height : Nat) (px : Nat → Nat → Nat)
    (y x : Nat) :
    luminanceRun width height px y x =
      if y < height then lumRow width (px y) x else px y x := by
  induction height generalizing px with
  | zero => simp [luminanceRun]
  | succ n ih =>
    simp only [luminanceRun, List.range_succ, List.foldl_append,
      List.foldl_cons, List.foldl_nil]
    rw [show ((List.range n).foldl
        (fun g y => Function.update g y (lumRow width (g y))) px) = luminanceRun width n px from rfl]
    rcases Nat.lt_trichotomy y n with h | h | h
    · rw [Function.update_noteq (Nat.ne_of_lt h)]
      rw [ih px]
      simp [h, Nat.lt_succ_of_lt h]
    · subst h
      rw [Function.update_same]
      rw [luminanceRun_row_of_le width y px y (Nat.le_refl y)]
      simp [Nat.lt_irrefl, Nat.lt_succ_self]
    · rw [Function.update_noteq (Nat.ne_of_gt h)]
      rw [ih px]
      have h1 : ¬ y < n := Nat.not_lt.mpr (Nat.le_of_lt h)
      have h2 : ¬ y < n + 1 := Nat.not_lt.mpr h
      simp [h1, h2]

example : luminancePixel 0xAAFF0000 = 85 <<< 24 := by decide
example : luminancePixel (luminancePixel 0x00555555) = 0 := by decide

/-! ## Domain enums and their plutovg images (adapter functions) -/

/-- `lunasvg::WindRule`. -/
inductive WindRule | NonZero | EvenOdd
deriving DecidableEq, Repr

/-- `lunasvg::BlendMode`. -/
inductive BlendMode | Src | Src_Over | Dst_In | Dst_Out
deriving DecidableEq, Repr

/-- `lunasvg::LineCap`. -/
inductive LineCap | Butt | Round | Square
deriving DecidableEq, Repr

/-- `lunasvg::LineJoin`. -/
inductive LineJoin | Miter | Round | Bevel
deriving DecidableEq, Repr

/-- `lunasvg::SpreadMethod`. -/
inductive SpreadMethod | Pad | Reflect | Repeats
deriving DecidableEq, Repr

/-- `lunasvg::TextureType`. -/
inductive TextureType | Plain | Tiled
deriving DecidableEq, Repr

/-- `plutovg_fill_rule_t`. -/
inductive PlutoFillRule | nonZero | evenOdd
deriving DecidableEq, Repr

/-- `plutovg_operator_t`. -/
inductive PlutoOperator | src | srcOver | dstIn | dstOut
deriving DecidableEq, Repr

/-- `plutovg_line_cap_t`. -/
inductive PlutoLineCap | butt | round | square
deriving DecidableEq, Repr

/-- `plutovg_line_join_t`. -/
inductive PlutoLineJoin | miter | round | bevel
deriving DecidableEq, Repr

/-- `plutovg_spread_method_t`. -/
inductive PlutoSpread | pad | reflect | tile
deriving DecidableEq, Repr

/-- `plutovg_texture_type_t`. -/
inductive PlutoTextureType | plain | tiled
deriving DecidableEq, Repr

def to_plutovg_fill_rule (winding : WindRule) : PlutoFillRule :=
  if winding = WindRule.EvenOdd then .evenOdd else .nonZero

def to_plutovg_operator (mode : BlendMode) : PlutoOperator :=
  if mode = BlendMode.Src then .src
  else if mode = BlendMode.Src_Over then .srcOver
  else if mode = BlendMode.Dst_In then .dstIn else .dstOut

def to_plutovg_line_cap (cap : LineCap) : PlutoLineCap :=
  if cap = LineCap.Butt then .butt
  else if cap = LineCap.Round then .round else .square

def to_plutovg_line_join (join : LineJoin) : PlutoLineJoin :=
  if join = LineJoin.Miter then .miter
  else if join = LineJoin.Round then .round else .bevel

def to_plutovg_spread_method (spread : SpreadMethod) : PlutoSpread :=
  if spread = SpreadMethod.Pad then .pad
  else if spread = SpreadMethod.Reflect then .reflect else .tile

def to_plutovg_texture_type (type : TextureType) : PlutoTextureType :=
  if type = TextureType.Plain then .plain else .tiled

/-! ## Paths, colors, paint -/

/-- One segment delivered by `PathIterator::currentSegment`
({MoveTo(p0), LineTo(p0), CubicTo(p0,p1,p2), Close}). -/
inductive PathSeg
  | moveTo (p0 : ℚ × ℚ)
  | lineTo (p0 : ℚ × ℚ)
  | cubicTo (p0 p1 p2 : ℚ × ℚ)
  | close
deriving DecidableEq, Repr

/-- `lunasvg::Path`: ordered sequence of segment commands, replayed in
order by `PathIterator`. -/
def Path := List PathSeg

/-- Commands entering the plutovg path builder
(`plutovg_move_to` / `plutovg_line_to` / `plutovg_cubic_to` /
`plutovg_close_path`). -/
inductive PlutoPathCmd
  | moveTo (p0 : ℚ × ℚ)
  | lineTo (p0 : ℚ × ℚ)
  | cubicTo (p0 p1 p2 : ℚ × ℚ)
  | closePath
deriving DecidableEq, Repr

/-- `to_plutovg_path`: replay the Path's segments into the rasterizer's
path builder, segment by segment. -/
def to_plutovg_path (path : Path) : List PlutoPathCmd :=
  path.map fun s =>
    match s with
    | .moveTo p0 => .moveTo p0
    | .lineTo p0 => .lineTo p0
    | .cubicTo p0 p1 p2 => .cubicTo p0 p1 p2
    | .close => .closePath

/-- `lunasvg::Color`: four independent 0–255 channel values. -/
structure Color where
  red : Nat
  green : Nat
  blue : Nat
  alpha : Nat
deriving DecidableEq, Repr

/-- `lunasvg::GradientStops`: ordered (offset, Color) pairs. -/
def GradientStops := List (ℚ × Color)

/-- `lunasvg::DashData`. -/
structure DashData where
  offset : ℚ
  array : List ℚ
deriving DecidableEq, Repr

/-- The paint source held by the plutovg context.  `plutovg_set_rgba`
receives channels normalized to 0–1; gradients carry stops (likewise
normalized by `to_plutovg_stops`), spread and their own matrix; textures
reference another surface. -/
inductive Paint
  | rgba (r g b a : ℚ)
  | linearGradient (x1 y1 x2 y2 : ℚ) (stops : List (ℚ × ℚ × ℚ × ℚ × ℚ))
      (spread : PlutoSpread) (matrix : Matrix)
  | radialGradient (cx cy r fx fy fr : ℚ) (stops : List (ℚ × ℚ × ℚ × ℚ × ℚ))
      (spread : PlutoSpread) (matrix : Matrix)
  | texture (type : PlutoTextureType) (matrix : Matrix)
  | textureSurface (originX originY : ℚ)

/-- `to_plutovg_stops`: each stop's color channels are divided by 255. -/
def to_plutovg_stops (stops : GradientStops) : List (ℚ × ℚ × ℚ × ℚ × ℚ) :=
  stops.map fun stop =>
    (stop.1, (stop.2.red : ℚ) / 255, (stop.2.green : ℚ) / 255,
     (stop.2.blue : ℚ) / 255, (stop.2.alpha : ℚ) / 255)

/-! ## The plutovg context and surface -/

/-- The sticky rasterizer-context state held by a `plutovg_t`. -/
structure PlutoState where
  paint : Paint
  matrix : Matrix
  fillRule : PlutoFillRule
  op : PlutoOperator
  opacity : ℚ
  lineWidth : ℚ
  lineCap : PlutoLineCap
  lineJoin : PlutoLineJoin
  miterLimit : ℚ
  dashOffset : ℚ
  dashArray : List ℚ
  path : List PlutoPathCmd

/-- Default context state after `plutovg_create` (external defaults;
no claim observes them). -/
def PlutoState.init : PlutoState :=
  { paint := .rgba 0 0 0 1
    matrix := Matrix.identity
    fillRule := .nonZero
    op := .srcOver
    opacity := 1
    lineWidth := 1
    lineCap := .butt
    lineJoin := .miter
    miterLimit := 10
    dashOffset := 0
    dashArray := []
    path := [] }

/-- A plutovg surface: width/height/stride plus pixel words; `data y x`
is the packed 32-bit word at byte offset `stride*y + 4*x`. -/
structure Surface where
  width : Int
  height : Int
  stride : Int
  data : Nat → Nat → Nat

/-- A pixel-effect function standing for an external plutovg rendering
primitive (`plutovg_fill` / `plutovg_stroke` / `plutovg_paint`): given the
context state and the current path it rewrites the surface pixels.  The
Canvas operations are parameterized by it; the rasterizer internals are
out of scope (spec §1). -/
def Render : Type :=
  PlutoState → List PlutoPathCmd → (Nat → Nat → Nat) → (Nat → Nat → Nat)

/-! ## Canvas -/

/-- `lunasvg::Canvas`: owned surface + plutovg context + translation +
logical rect. -/
structure Canvas where
  surface : Surface
  pluto : PlutoState
  translation : Matrix
  rect : Rect

/-- `Canvas::Canvas(unsigned char* data, int width, int height, int stride)`:
wrap an externally supplied buffer; identity translation;
logical rect (0,0,width,height). -/
def Canvas.ofData (data : Nat → Nat → Nat) (width height stride : Int) :
    Canvas :=
  { surface := ⟨width, height, stride, data⟩
    pluto := PlutoState.init
    translation := Matrix.identity
    rect := ⟨0, 0, (width : ℚ), (height : ℚ)⟩ }

/-- `Canvas::Canvas(int x, int y, int width, int height)`:
`plutovg_surface_create(width, height)` allocates a zeroed surface with
tightly packed rows; translation = translate(-x,-y);
logical rect (x,y,width,height). -/
def Canvas.ofInts (x y width height : Int) : Canvas :=
  { surface := ⟨width, height, 4 * width, fun _ _ => 0⟩
    pluto := PlutoState.init
    translation := Matrix.translate (-(x : ℚ)) (-(y : ℚ))
    rect := ⟨(x : ℚ), (y : ℚ), (width : ℚ), (height : ℚ)⟩ }

/-- `Canvas::create(double x, double y, double width, double height)`:
degenerate boxes degrade to a 1×1 surface at origin; otherwise integer
bounds via floor/ceil, delegating to the (x,y,width,height) constructor. -/
def Canvas.create (x y width height : ℚ) : Canvas :=
  if width ≤ 0 ∨ height ≤ 0 then
    Canvas.ofInts 0 0 1 1
  else
    let l := ⌊x⌋
    let t := ⌊y⌋
    let r := ⌈x + width⌉
    let b := ⌈y + height⌉
    Canvas.ofInts l t (r - l) (b - t)

/-- `Canvas::setColor`: `plutovg_set_rgba` with channels divided by 255. -/
def Canvas.setColor (c : Canvas) (color : Color) : Canvas :=
  let paint : Paint :=
    .rgba ((color.red : ℚ) / 255) ((color.green : ℚ) / 255)
          ((color.blue : ℚ) / 255) ((color.alpha : ℚ) / 255)
  { c with pluto := { c.pluto with paint := paint } }

/-- `Canvas::setLinearGradient`. -/
def Canvas.setLinearGradient (c : Canvas) (x1 y1 x2 y2 : ℚ)
    (stops : GradientStops) (spread : SpreadMethod) (transform : Matrix) :
    Canvas :=
  let paint : Paint :=
    .linearGradient x1 y1 x2 y2 (to_plutovg_stops stops)
      (to_plutovg_spread_method spread) (to_plutovg_matrix transform)
  { c with pluto := { c.pluto with paint := paint } }

/-- `Canvas::setRadialGradient` (focal radius fixed at 0 in the source). -/
def Canvas.setRadialGradient (c : Canvas) (cx cy r fx fy : ℚ)
    (stops : GradientStops) (spread : SpreadMethod) (transform : Matrix) :
    Canvas :=
  let paint : Paint :=
    .radialGradient cx cy r fx fy 0 (to_plutovg_stops stops)
      (to_plutovg_spread_method spread) (to_plutovg_matrix transform)
  { c with pluto := { c.pluto with paint := paint } }

/-- `Canvas::setTexture`. -/
def Canvas.setTexture (c : Canvas) (type : TextureType)
    (transform : Matrix) : Canvas :=
  let paint : Paint :=
    .texture (to_plutovg_texture_type type) (to_plutovg_matrix transform)
  { c with pluto := { c.pluto with paint := paint } }

/-- `Canvas::fill`: matrix := to_plutovg_matrix(transform) multiplied by
the canvas translation; replay the path; set matrix, fill rule, opacity,
operator; invoke the fill primitive (abstracted as `render`). -/
def Canvas.fill (render : Render) (c : Canvas) (path : Path)
    (transform : Matrix) (winding : WindRule) (mode : BlendMode)
    (opacity : ℚ) : Canvas :=
  let matrix := Matrix.multiply (to_plutovg_matrix transform) c.translation
  let st : PlutoState :=
    { c.pluto with
        path := to_plutovg_path path
        matrix := matrix
        fillRule := to_plutovg_fill_rule winding
        opacity := opacity
        op := to_plutovg_operator mode }
  { c with
      pluto := st
      surface := { c.surface with data := render st st.path c.surface.data } }

/-- `Canvas::stroke`: same matrix composition; sets stroke parameters,
operator and opacity; invokes the stroke primitive. -/
def Canvas.stroke (render : Render) (c : Canvas) (path : Path)
    (transform : Matrix) (width : ℚ) (cap : LineCap) (join : LineJoin)
    (miterlimit : ℚ) (dash : DashData) (mode : BlendMode) (opacity : ℚ) :
    Canvas :=
  let matrix := Matrix.multiply (to_plutovg_matrix transform) c.translation
  let st : PlutoState :=
    { c.pluto with
        path := to_plutovg_path path
        matrix := matrix
        lineWidth := width
        lineCap := to_plutovg_line_cap cap
        lineJoin := to_plutovg_line_join join
        miterLimit := miterlimit
        dashOffset := dash.offset
        dashArray := dash.array
        op := to_plutovg_operator mode
        opacity := opacity }
  { c with
      pluto := st
      surface := { c.surface with data := render st st.path c.surface.data } }

/-- `Canvas::blend`: source surface as texture at the source's
logical-rect origin, operator + opacity, matrix = destination
translation, `plutovg_paint` (abstracted as `render`, empty path). -/
def Canvas.blend (render : Render) (c : Canvas) (source : Canvas)
    (mode : BlendMode) (opacity : ℚ) : Canvas :=
  let st : PlutoState :=
    { c.pluto with
        paint := .textureSurface source.rect.x source.rect.y
        op := to_plutovg_operator mode
        opacity := opacity
        matrix := c.translation }
  { c with
      pluto := st
      surface := { c.surface with data := render st [] c.surface.data } }

/-- Rectangle as a path subpath (`plutovg_rect` /
`plutovg_path_add_rect`). -/
def rectToPath (r : Rect) : List PlutoPathCmd :=
  [.moveTo (r.x, r.y), .lineTo (r.x + r.w, r.y),
   .lineTo (r.x + r.w, r.y + r.h), .lineTo (r.x, r.y + r.h), .closePath]

/-- `plutovg_path_transform`: transform every point of a path. -/
def transformPath (m : Matrix) (cmds : List PlutoPathCmd) :
    List PlutoPathCmd :=
  cmds.map fun cmd =>
    match cmd with
    | .moveTo p0 => .moveTo (m.apply p0)
    | .lineTo p0 => .lineTo (m.apply p0)
    | .cubicTo p0 p1 p2 => .cubicTo (m.apply p0) (m.apply p1) (m.apply p2)
    | .closePath => .closePath

/-- `Canvas::mask` (context side): path = canvas logical rect plus the
clip rect transformed by the caller matrix; rgba(0,0,0,0); even-odd;
operator Src; opacity 0; matrix = translation; fill. -/
def Canvas.mask (render : Render) (c : Canvas) (clip : Rect)
    (transform : Matrix) : Canvas :=
  let matrix := to_plutovg_matrix transform
  let path := rectToPath c.rect ++ transformPath matrix (rectToPath clip)
  let st : PlutoState :=
    { c.pluto with
        path := path
        paint := .rgba 0 0 0 0
        fillRule := .evenOdd
        op := .src
        opacity := 0
        matrix := c.translation }
  { c with
      pluto := st
      surface := { c.surface with data := render st st.path c.surface.data } }

/-- `Canvas::luminance` as a Canvas operation: rewrites the pixel words
of the surface via `luminanceRun`; touches nothing else. -/
def Canvas.luminance (c : Canvas) : Canvas :=
  let newData :=
    luminanceRun c.surface.width.toNat c.surface.height.toNat c.surface.data
  { c with surface := { c.surface with data := newData } }

/-! ## Point-level semantics of the mask fill

`Canvas::mask` delegates the actual pixel work to `plutovg_fill`, whose
internals are out of scope (spec §1); its effect is modelled from the
spec at exact point coverage (anti-aliasing is likewise out of scope).
The path it fills consists of two rectangular subpaths, each an affine
image of a rectangle; a device point lies in the even-odd region iff an
odd number of subpaths contain it. -/

/-- An affine image of a rectangle: one rectangular subpath of a path,
carried together with the total (path + CTM) matrix applied to it. -/
structure TRect where
  M : Matrix
  r : Rect

/-- Determinant of the linear part. -/
def TRect.det (t : TRect) : ℚ := t.M.m00 * t.M.m11 - t.M.m01 * t.M.m10

/-- Preimage of a device point under the affine map (meaningful when the
determinant is nonzero). -/
def TRect.pullback (t : TRect) (p : ℚ × ℚ) : ℚ × ℚ :=
  ((t.M.m11 * (p.1 - t.M.m02) - t.M.m01 * (p.2 - t.M.m12)) / t.det,
   (-(t.M.m10) * (p.1 - t.M.m02) + t.M.m00 * (p.2 - t.M.m12)) / t.det)

/-- A point strictly inside a rectangle. -/
def Rect.StrictInside (r : Rect) (q : ℚ × ℚ) : Prop :=
  r.x < q.1 ∧ q.1 < r.x + r.w ∧ r.y < q.2 ∧ q.2 < r.y + r.h

instance (r : Rect) (q : ℚ × ℚ) : Decidable (r.StrictInside q) := by
  unfold Rect.StrictInside; exact inferInstance

/-- A device point strictly inside the affine image of the rectangle:
the map is nondegenerate and the preimage is strictly inside the
rectangle. -/
def TRect.Contains (t : TRect) (p : ℚ × ℚ) : Prop :=
  t.det ≠ 0 ∧ t.r.StrictInside (t.pullback p)

instance (t : TRect) (p : ℚ × ℚ) : Decidable (t.Contains p) := by
  unfold TRect.Contains; exact inferInstance

/-- A device point strictly outside the affine image of the rectangle
(nondegenerate map, preimage strictly beyond some edge). -/
def TRect.StrictlyOutside (t : TRect) (p : ℚ × ℚ) : Prop :=
  t.det ≠ 0 ∧
    ((t.pullback p).1 < t.r.x ∨ t.r.x + t.r.w < (t.pullback p).1 ∨
     (t.pullback p).2 < t.r.y ∨ t.r.y + t.r.h < (t.pullback p).2)

/-- Number of subpaths containing a point; the even-odd rule fills the
points where it is odd. -/
def evenOddCount (subpaths : List TRect) (p : ℚ × ℚ) : Nat :=
  subpaths.countP fun t => decide (t.Contains p)

/-- Modelled from the spec: the pixel effect of the rasterizer fill
primitive as `Canvas::mask` configures it (spec §4.4: "two nested
rectangles — canvas bounds and clip rect — fill even-odd … with fully
transparent color, Src operator, and zero opacity").  With operator Src
each covered point is replaced by the source value; with rgba(0,0,0,0)
at opacity 0 the source value is the packed word 0; uncovered points are
untouched. -/
def fillSrcEvenOdd (subpaths : List TRect) (src : Nat)
    (old : ℚ × ℚ → Nat) : ℚ × ℚ → Nat :=
  fun p => if evenOddCount subpaths p % 2 = 1 then src else old p

/-- The pixel effect of `Canvas::mask` on the surface viewed as a map
from device points to packed words: the canvas logical rect is drawn
under the CTM (= translation) alone, the clip rect under the caller
matrix followed by the CTM. -/
def maskEffect (translation : Matrix) (rect : Rect) (clip : Rect)
    (transform : Matrix) (old : ℚ × ℚ → Nat) : ℚ × ℚ → Nat :=
  fillSrcEvenOdd
    [⟨translation, rect⟩,
     ⟨Matrix.multiply (to_plutovg_matrix transform) translation, clip⟩]
    0 old

theorem TRect.not_contains_of_strictlyOutside (t : TRect) (p : ℚ × ℚ)
    (h : t.StrictlyOutside p) : ¬ t.Contains p := by
  rcases h with ⟨hdet, hout⟩
  rintro ⟨-, h1, h2, h3, h4⟩
  rcases hout with h | h | h | h
  · exact absurd h1 (not_lt.mpr (le_of_lt h))
  · exact absurd h2 (not_lt.mpr (le_of_lt h))
  · exact absurd h3 (not_lt.mpr (le_of_lt h))
  · exact absurd h4 (not_lt.mpr (le_of_lt h))

/-! ## The text blit (Canvas::text, final double loop)

The blit writes raw bytes of the surface buffer
(`data : Nat → Nat`, one `unsigned char` per index).  `width`, `height`
come from `plutovg_surface_get_width/height` (C `int`, modelled `Int`);
`round_x`/`round_y` are the rounded pen position; `cov i j` is
`text_canvas[i][j]` (a byte, i.e. `< 256`). -/

/-- Destination byte offset the blit computes for target pixel row `py`,
column `px`: `((i + round_y) * width + (j + round_x)) * 4` — the pixel
width is used, not the row stride (which `Canvas::text` fetches and only
prints). -/
def blitIndex (width : Nat) (py px : Nat) : Nat := (py * width + px) * 4

/-- Byte offset of pixel (`px`, `py`) in the surface's stride-based
layout (the packed-pixel data model; cf. `Canvas::luminance`, which
addresses row `y` at byte `stride * y`). -/
def strideIndex (stride : Nat) (py px : Nat) : Nat := py * stride + px * 4

/-- The skip condition of the blit loop body:
`text_canvas[i][j] == 0 || (i + round_y) < 0 || (i + round_y) >= height
|| (j + round_x) < 0 || (j + round_x) >= width`. -/
def blitSkip (cov : Nat → Nat → Nat) (width height round_x round_y : Int)
    (i j : Nat) : Prop :=
  cov i j = 0 ∨ (i : Int) + round_y < 0 ∨ height ≤ (i : Int) + round_y ∨
    (j : Int) + round_x < 0 ∨ width ≤ (j : Int) + round_x

instance (cov : Nat → Nat → Nat) (width height round_x round_y : Int)
    (i j : Nat) : Decidable (blitSkip cov width height round_x round_y i j) := by
  unfold blitSkip; exact inferInstance

/-- One iteration of the blit loop body: skip, or write the four bytes
`data[index] = data[index+1] = data[index+2] = 255 - coverage`,
`data[index+3] = 255`. -/
def textBlitStep (cov : Nat → Nat → Nat) (width height round_x round_y : Int)
    (d : Nat → Nat) (i j : Nat) : Nat → Nat :=
  if blitSkip cov width height round_x round_y i j then d
  else
    let index := ((((i : Int) + round_y) * width + ((j : Int) + round_x)) * 4).toNat
    fun k =>
      if k = index ∨ k = index + 1 ∨ k = index + 2 then 255 - cov i j
      else if k = index + 3 then 255
      else d k

/-- The full blit double loop (`for i < height_canvas, for j < width_canvas`). -/
def textBlit (cov : Nat → Nat → Nat) (width height : Int) (wc hc : Nat)
    (round_x round_y : Int) (d : Nat → Nat) : Nat → Nat :=
  (List.range hc).foldl
    (fun d i => (List.range wc).foldl
      (fun d j => textBlitStep cov width height round_x round_y d i j) d) d

/-- Byte `k` is written by iteration (`i`, `j`). -/
def blitTouches (cov : Nat → Nat → Nat) (width height round_x round_y : Int)
    (i j k : Nat) : Prop :=
  ¬ blitSkip cov width height round_x round_y i j ∧
    ((((i : Int) + round_y) * width + ((j : Int) + round_x)) * 4).toNat ≤ k ∧
    k < ((((i : Int) + round_y) * width + ((j : Int) + round_x)) * 4).toNat + 4

theorem toNat_mul_add_four (A B W : Nat) :
    ((((A : Int)) * (W : Int) + (B : Int)) * 4).toNat = (A * W + B) * 4 := by
  have h : (((A : Int)) * (W : Int) + (B : Int)) * 4 =
      (((A * W + B) * 4 : Nat) : Int) := by push_cast; ring
  rw [h, Int.toNat_natCast]

/-- In the non-skip branch the computed (int) byte offset is
`blitIndex` of the target pixel coordinates. -/
theorem blitStep_index_eq (cov : Nat → Nat → Nat)
    (width height round_x round_y : Int) (i j : Nat)
    (hns : ¬ blitSkip cov width height round_x round_y i j) :
    ((((i : Int) + round_y) * width + ((j : Int) + round_x)) * 4).toNat =
      blitIndex width.toNat ((i : Int) + round_y).toNat
        ((j : Int) + round_x).toNat := by
  unfold blitSkip at hns
  push_neg at hns
  obtain ⟨-, hy0, hyh, hx0, hxw⟩ := hns
  have hw0 : 0 ≤ width := le_of_lt (lt_of_le_of_lt hx0 hxw)
  have hy : (i : Int) + round_y = (((i : Int) + round_y).toNat : Int) :=
    (Int.toNat_of_nonneg hy0).symm
  have hx : (j : Int) + round_x = (((j : Int) + round_x).toNat : Int) :=
    (Int.toNat_of_nonneg hx0).symm
  have hw : width = ((width.toNat : Nat) : Int) := (Int.toNat_of_nonneg hw0).symm
  rw [hy, hx, hw, toNat_mul_add_four]
  rfl

theorem blitStep_untouched (cov : Nat → Nat → Nat)
    (width height round_x round_y : Int) (d : Nat → Nat) (i j k : Nat)
    (h : ¬ blitTouches cov width height round_x round_y i j k) :
    textBlitStep cov width height round_x round_y d i j k = d k := by
  unfold textBlitStep
  by_cases hs : blitSkip cov width height round_x round_y i j
  · rw [if_pos hs]
  · rw [if_neg hs]
    unfold blitTouches at h
    push_neg at h
    have hk := h hs
    set idx := ((((i : Int) + round_y) * width + ((j : Int) + round_x)) * 4).toNat with hidx
    have h1 : ¬ (k = idx ∨ k = idx + 1 ∨ k = idx + 2) := by omega
    have h2 : ¬ (k = idx + 3) := by omega
    simp only [if_neg h1, if_neg h2]

theorem blitRow_untouched (cov : Nat → Nat → Nat)
    (width height round_x round_y : Int) (i k : Nat) :
    ∀ (js : List Nat) (d : Nat → Nat),
      (∀ j ∈ js, ¬ blitTouches cov width height round_x round_y i j k) →
      (js.foldl (fun d j => textBlitStep cov width height round_x round_y d i j) d) k
        = d k := by
  intro js
  induction js with
  | nil => intro d _; rfl
  | cons j js ih =>
    intro d hall
    simp only [List.foldl_cons]
    rw [ih _ (fun j' hj' => hall j' (List.mem_cons_of_mem j hj'))]
    exact blitStep_untouched _ _ _ _ _ _ _ _ _ (hall j (List.mem_cons_self j js))

theorem blitGrid_untouched (cov : Nat → Nat → Nat)
    (width height round_x round_y : Int) (wc k : Nat) :
    ∀ (is : List Nat) (d : Nat → Nat),
      (∀ i ∈ is, ∀ j ∈ List.range wc,
        ¬ blitTouches cov width height round_x round_y i j k) →
      (is.foldl
        (fun d i => (List.range wc).foldl
          (fun d j => textBlitStep cov width height round_x round_y d i j) d) d) k
        = d k := by
  intro is
  induction is with
  | nil => intro d _; rfl
  | cons i is ih =>
    intro d hall
    simp only [List.foldl_cons]
    rw [ih _ (fun i' hi' => hall i' (List.mem_cons_of_mem i hi'))]
    exact blitRow_untouched _ _ _ _ _ _ _ _ _
      (fun j hj => hall i (List.mem_cons_self i is) j hj)

/-- Distinct pixel slots in the `blitIndex` layout occupy disjoint
4-byte ranges. -/
theorem blitIndex_inj (W py px py' px' k : Nat) (hpx : px < W) (hpx' : px' < W)
    (h : blitIndex W py px ≤ k ∧ k < blitIndex W py px + 4)
    (h' : blitIndex W py' px' ≤ k ∧ k < blitIndex W py' px' + 4) :
    py = py' ∧ px = px' := by
  unfold blitIndex at h h'
  have hn : py * W + px = py' * W + px' := by omega
  have hdiv : ∀ a b : Nat, b < W → (a * W + b) / W = a := by
    intro a b hb
    rw [Nat.add_comm, Nat.add_mul_div_right _ _ (Nat.lt_of_le_of_lt (Nat.zero_le b) hb),
      Nat.div_eq_of_lt hb, Nat.zero_add]
  have hpy : py = py' := by
    have h1 := hdiv py px hpx
    have h2 := hdiv py' px' hpx'
    rw [hn] at h1
    exact h1.symm.trans h2
  refine ⟨hpy, ?_⟩
  subst hpy
  omega

/-- A byte is written by at most one iteration of the blit loop. -/
theorem blitTouches_inj (cov : Nat → Nat → Nat)
    (width height round_x round_y : Int) (i j i' j' k : Nat)
    (h : blitTouches cov width height round_x round_y i j k)
    (h' : blitTouches cov width height round_x round_y i' j' k) :
    i = i' ∧ j = j' := by
  obtain ⟨hns, hk⟩ := h
  obtain ⟨hns', hk'⟩ := h'
  rw [blitStep_index_eq cov width height round_x round_y i j hns] at hk
  rw [blitStep_index_eq cov width height round_x round_y i' j' hns'] at hk'
  have hb := hns
  have hb' := hns'
  unfold blitSkip at hb hb'
  push_neg at hb hb'
  obtain ⟨-, hy0, hyh, hx0, hxw⟩ := hb
  obtain ⟨-, hy0', hyh', hx0', hxw'⟩ := hb'
  have hpxW : ((j : Int) + round_x).toNat < width.toNat := by omega
  have hpxW' : ((j' : Int) + round_x).toNat < width.toNat := by omega
  have := blitIndex_inj width.toNat
    ((i : Int) + round_y).toNat ((j : Int) + round_x).toNat
    ((i' : Int) + round_y).toNat ((j' : Int) + round_x).toNat k
    hpxW hpxW' hk hk'
  constructor <;> omega

/-- On a touched byte the value a blit iteration writes does not depend
on the incoming buffer. -/
theorem blitStep_value_indep (cov : Nat → Nat → Nat)
    (width height round_x round_y : Int) (d d' : Nat → Nat) (i j k : Nat)
    (h : blitTouches cov width height round_x round_y i j k) :
    textBlitStep cov width height round_x round_y d i j k =
      textBlitStep cov width height round_x round_y d' i j k := by
  obtain ⟨hns, hk⟩ := h
  unfold textBlitStep
  rw [if_neg hns, if_neg hns]
  set idx := ((((i : Int) + round_y) * width + ((j : Int) + round_x)) * 4).toNat with hidx
  by_cases h1 : k = idx ∨ k = idx + 1 ∨ k = idx + 2
  · simp only [if_pos h1]
  · have h2 : k = idx + 3 := by omega
    simp only [if_neg h1, if_pos h2]

/-- The whole blit agrees, on every byte iteration (`i`, `j`) writes,
with that single iteration applied to the original buffer. -/
theorem textBlit_eq_step_of_touches (cov : Nat → Nat → Nat)
    (width height : Int) (wc hc : Nat) (round_x round_y : Int)
    (d : Nat → Nat) (i j k : Nat) (hi : i < hc) (hj : j < wc)
    (hk : blitTouches cov width height round_x round_y i j k) :
    textBlit cov width height wc hc round_x round_y d k =
      textBlitStep cov width height round_x round_y d i j k := by
  unfold textBlit
  rw [show hc = (i + 1) + (hc - i - 1) by omega, List.range_add,
    List.range_succ, List.foldl_append, List.foldl_append]
  -- rows after row i never touch byte k
  rw [blitGrid_untouched cov width height round_x round_y wc k _ _ ?later]
  case later =>
    intro i' hi' j' hj'
    intro ht
    have := blitTouches_inj cov width height round_x round_y i j i' j' k hk ht
    simp only [List.mem_map, List.mem_range] at hi'
    omega
  simp only [List.foldl_cons, List.foldl_nil]
  -- within row i, split at column j
  rw [show wc = (j + 1) + (wc - j - 1) by omega, List.range_add,
    List.range_succ, List.foldl_append, List.foldl_append]
  -- columns after j never touch byte k
  rw [blitRow_untouched cov width height round_x round_y i k _ _ ?laterRow]
  case laterRow =>
    intro j' hj'
    intro ht
    have := blitTouches_inj cov width height round_x round_y i j i j' k hk ht
    simp only [List.mem_map, List.mem_range] at hj'
    omega
  simp only [List.foldl_cons, List.foldl_nil]
  exact blitStep_value_indep cov width height round_x round_y _ d i j k hk

/-- The four byte values a non-skipped iteration writes. -/
theorem blitStep_writes (cov : Nat → Nat → Nat)
    (width height round_x round_y : Int) (d : Nat → Nat) (i j : Nat)
    (hns : ¬ blitSkip cov width height round_x round_y i j) :
    textBlitStep cov width height round_x round_y d i j
      (((((i : Int) + round_y) * width + ((j : Int) + round_x)) * 4).toNat)
      = 255 - cov i j ∧
    textBlitStep cov width height round_x round_y d i j
      (((((i : Int) + round_y) * width + ((j : Int) + round_x)) * 4).toNat + 1)
      = 255 - cov i j ∧
    textBlitStep cov width height round_x round_y d i j
      (((((i : Int) + round_y) * width + ((j : Int) + round_x)) * 4).toNat + 2)
      = 255 - cov i j ∧
    textBlitStep cov width height round_x round_y d i j
      (((((i : Int) + round_y) * width + ((j : Int) + round_x)) * 4).toNat + 3)
      = 255 := by
  set idx := ((((i : Int) + round_y) * width + ((j : Int) + round_x)) * 4).toNat
    with hidxdef
  unfold textBlitStep
  rw [if_neg hns]
  refine ⟨?_, ?_, ?_, ?_⟩
  · simp
  · simp
  · simp
  · have h1 : ¬ (idx + 3 = idx ∨ idx + 3 = idx + 1 ∨ idx + 3 = idx + 2) := by omega
    simp [if_neg h1]

/-! ## Error handling of the text routine (Canvas::text, FreeType setup)

Every FreeType call in `Canvas::text` is followed by
`if (error) { std::cout << ...; exit(1); }`: a failing font or glyph
load terminates the entire process rather than returning an error. -/

/-- Outcome of the FreeType setup part of `Canvas::text`. -/
inductive TextOutcome
  | exited (code : Nat)
  | proceeded
deriving DecidableEq, Repr

/-- The error policy of `Canvas::text`: the outcomes of
`FT_Init_FreeType`, `FT_New_Face`, `FT_Set_Char_Size` and the
`FT_Load_Char` loop, checked in source order; any nonzero error code
leads to `exit(1)`. -/
def textFtErrorPolicy (initError newFaceError setCharSizeError : Int)
    (loadCharErrors : List Int) : TextOutcome :=
  if initError ≠ 0 then .exited 1
  else if newFaceError ≠ 0 then .exited 1
  else if setCharSizeError ≠ 0 then .exited 1
  else if loadCharErrors.any (fun e => e != 0) then .exited 1
  else .proceeded

/-! ## Claim theorems -/

/-- C1: For every pixel of the surface, `Canvas::luminance` replaces the
32-bit packed pixel by `l << 24` where `l = (2*r + 3*g + b) / 6` with
truncating integer division, r, g, b being bits 16–23, 8–15, 0–7 of the
old pixel; in particular a pixel with red=255, green=0, blue=0 (any
alpha) becomes a pixel whose top byte is 85 and whose other three bytes
are zero. -/
theorem claim_C1_luminance_formula (width height : Nat)
    (px : Nat → Nat → Nat) (y x : Nat) (hy : y < height) (hx : x < width) :
    luminanceRun width height px y x =
      ((2 * ((px y x >>> 16) &&& 0xFF) + 3 * ((px y x >>> 8) &&& 0xFF) +
        ((px y x >>> 0) &&& 0xFF)) / 6) <<< 24 ∧
    ((px y x >>> 16) &&& 0xFF = 255 → (px y x >>> 8) &&& 0xFF = 0 →
      (px y x >>> 0) &&& 0xFF = 0 →
      luminanceRun width height px y x = 85 <<< 24 ∧
      luminanceRun width height px y x >>> 24 = 85 ∧
      luminanceRun width height px y x &&& 0xFFFFFF = 0) := by
  have hmain : luminanceRun width height px y x = luminancePixel (px y x) := by
    rw [luminanceRun_apply, if_pos hy, lumRow_apply, if_pos hx]
  refine ⟨by rw [hmain]; rfl, ?_⟩
  intro hr hg hb
  have h85 : luminanceRun width height px y x = 85 <<< 24 := by
    rw [hmain]
    unfold luminancePixel
    rw [hr, hg, hb]
  refine ⟨h85, ?_, ?_⟩ <;> rw [h85] <;> decide

theorem claim_C1_luminance_formula_witness :
    luminanceRun 1 1 (fun _ _ => 0xAAFF0000) 0 0 = 85 <<< 24 ∧
    luminanceRun 1 1 (fun _ _ => 0xAAFF0000) 0 0 >>> 24 = 85 ∧
    luminanceRun 1 1 (fun _ _ => 0xAAFF0000) 0 0 &&& 0xFFFFFF = 0 :=
  (claim_C1_luminance_formula 1 1 (fun _ _ => 0xAAFF0000) 0 0
    (by decide) (by decide)).2 (by decide) (by decide) (by decide)

/-- C7 counterexample: for the already-gray pixel with r=g=b=85 and
alpha 0, the first `luminance` pass yields top byte 85 as claimed, but
the second pass yields top byte 0, not 85 — because the first pass
zeroes the r, g, b fields the second pass reads. -/
theorem claim_C7_counterexample :
    luminancePixel 0x00555555 = 85 <<< 24 ∧
    ¬ luminancePixel (luminancePixel 0x00555555) >>> 24 = 85 := by
  decide

set_option maxRecDepth 8192 in
/-- C7 amended: for every pixel with r = g = b = L (alpha 0), the first
application of the luminance body yields `L << 24` (top byte L, other
bytes 0); a second application yields 0 (top byte 0), since the first
pass left r = g = b = 0; the value L is reproduced only for L = 0. -/
theorem claim_C7_amended (L : Nat) (hL : L ≤ 255) :
    luminancePixel ((L <<< 16) ||| (L <<< 8) ||| L) = L <<< 24 ∧
    luminancePixel (L <<< 24) = 0 := by
  revert hL
  revert L
  decide

theorem claim_C7_amended_witness :
    luminancePixel ((85 <<< 16) ||| (85 <<< 8) ||| 85) = 85 <<< 24 ∧
    luminancePixel (85 <<< 24) = 0 :=
  claim_C7_amended 85 (by decide)

/-- C3: for every box (x, y, w, h) with w > 0 and h > 0, bounding-box
Canvas creation computes left = ⌊x⌋, top = ⌊y⌋, right = ⌈x+w⌉,
bottom = ⌈y+h⌉ and produces a surface of width right-left and height
bottom-top with translation translate(-left, -top). -/
theorem claim_C3_create_bbox (x y w h : ℚ) (hw : 0 < w) (hh : 0 < h) :
    Canvas.create x y w h =
      Canvas.ofInts ⌊x⌋ ⌊y⌋ (⌈x + w⌉ - ⌊x⌋) (⌈y + h⌉ - ⌊y⌋) ∧
    (Canvas.create x y w h).surface.width = ⌈x + w⌉ - ⌊x⌋ ∧
    (Canvas.create x y w h).surface.height = ⌈y + h⌉ - ⌊y⌋ ∧
    (Canvas.create x y w h).translation =
      Matrix.translate (-(⌊x⌋ : ℚ)) (-(⌊y⌋ : ℚ)) := by
  have hcond : ¬ (w ≤ 0 ∨ h ≤ 0) := by
    push_neg
    exact ⟨hw, hh⟩
  unfold Canvas.create
  rw [if_neg hcond]
  exact ⟨rfl, rfl, rfl, rfl⟩

theorem claim_C3_create_bbox_witness :
    (0 : ℚ) < 31/10 ∧ (0 : ℚ) < 2/5 ∧
    (Canvas.create (6/5) (27/10) (31/10) (2/5)).surface.width = 4 ∧
    (Canvas.create (6/5) (27/10) (31/10) (2/5)).surface.height = 2 ∧
    (Canvas.create (6/5) (27/10) (31/10) (2/5)).translation =
      Matrix.translate (-1) (-2) := by
  have h := claim_C3_create_bbox (6/5) (27/10) (31/10) (2/5)
    (by norm_num) (by norm_num)
  have hfx : ⌊(6/5 : ℚ)⌋ = 1 := by norm_num [Int.floor_eq_iff]
  have hfy : ⌊(27/10 : ℚ)⌋ = 2 := by norm_num [Int.floor_eq_iff]
  have hcr : ⌈(6/5 + 31/10 : ℚ)⌉ = 5 := by norm_num [Int.ceil_eq_iff]
  have hcb : ⌈(27/10 + 2/5 : ℚ)⌉ = 4 := by norm_num [Int.ceil_eq_iff]
  obtain ⟨-, hwd, hht, htr⟩ := h
  refine ⟨by norm_num, by norm_num, ?_, ?_, ?_⟩
  · rw [hwd, hcr, hfx]; norm_num
  · rw [hht, hcb, hfy]; norm_num
  · rw [htr, hfx, hfy]
    norm_num

/-- C4: for every box (x, y, w, h) with w ≤ 0 or h ≤ 0, bounding-box
Canvas creation never fails and yields a 1×1 surface at origin: logical
rect (0,0,1,1) and identity translation. -/
theorem claim_C4_create_degenerate (x y w h : ℚ) (hdeg : w ≤ 0 ∨ h ≤ 0) :
    Canvas.create x y w h = Canvas.ofInts 0 0 1 1 ∧
    (Canvas.create x y w h).surface.width = 1 ∧
    (Canvas.create x y w h).surface.height = 1 ∧
    (Canvas.create x y w h).rect = ⟨0, 0, 1, 1⟩ ∧
    (Canvas.create x y w h).translation = Matrix.identity := by
  unfold Canvas.create
  rw [if_pos hdeg]
  refine ⟨rfl, rfl, rfl, ?_, ?_⟩
  · show Rect.mk _ _ _ _ = _
    norm_num [Canvas.ofInts]
  · show Matrix.translate _ _ = _
    norm_num [Matrix.translate, Matrix.identity]

theorem claim_C4_create_degenerate_witness :
    Canvas.create 5 7 0 3 = Canvas.ofInts 0 0 1 1 ∧
    (Canvas.create 5 7 0 3).surface.width = 1 ∧
    (Canvas.create 5 7 0 3).surface.height = 1 ∧
    (Canvas.create 5 7 0 3).rect = ⟨0, 0, 1, 1⟩ ∧
    (Canvas.create 5 7 0 3).translation = Matrix.identity :=
  claim_C4_create_degenerate 5 7 0 3 (Or.inl (le_refl 0))

/-- C9: after every Canvas creation form the translation maps the
logical rect's origin to (0,0) in surface pixel space — the
buffer-wrapping form sets the identity translation with logical rect
(0,0,width,height), the offset form sets translate(-x,-y) with logical
rect (x,y,width,height) — and the invariant is preserved because no
Canvas operation modifies translation or rect. -/
theorem claim_C9_translation_invariant :
    (∀ (data : Nat → Nat → Nat) (w h s : Int),
      (Canvas.ofData data w h s).translation = Matrix.identity ∧
      (Canvas.ofData data w h s).rect = ⟨0, 0, (w : ℚ), (h : ℚ)⟩ ∧
      (Canvas.ofData data w h s).translation.apply
        ((Canvas.ofData data w h s).rect.x, (Canvas.ofData data w h s).rect.y)
        = (0, 0)) ∧
    (∀ x y w h : Int,
      (Canvas.ofInts x y w h).translation =
        Matrix.translate (-(x : ℚ)) (-(y : ℚ)) ∧
      (Canvas.ofInts x y w h).rect = ⟨(x : ℚ), (y : ℚ), (w : ℚ), (h : ℚ)⟩ ∧
      (Canvas.ofInts x y w h).translation.apply
        ((Canvas.ofInts x y w h).rect.x, (Canvas.ofInts x y w h).rect.y)
        = (0, 0)) ∧
    (∀ (c : Canvas) (color : Color),
      (c.setColor color).translation = c.translation ∧
      (c.setColor color).rect = c.rect) ∧
    (∀ (c : Canvas) (x1 y1 x2 y2 : ℚ) (stops : GradientStops)
        (spread : SpreadMethod) (transform : Matrix),
      (c.setLinearGradient x1 y1 x2 y2 stops spread transform).translation
        = c.translation ∧
      (c.setLinearGradient x1 y1 x2 y2 stops spread transform).rect = c.rect) ∧
    (∀ (c : Canvas) (cx cy r fx fy : ℚ) (stops : GradientStops)
        (spread : SpreadMethod) (transform : Matrix),
      (c.setRadialGradient cx cy r fx fy stops spread transform).translation
        = c.translation ∧
      (c.setRadialGradient cx cy r fx fy stops spread transform).rect = c.rect) ∧
    (∀ (c : Canvas) (type : TextureType) (transform : Matrix),
      (c.setTexture type transform).translation = c.translation ∧
      (c.setTexture type transform).rect = c.rect) ∧
    (∀ (render : Render) (c : Canvas) (path : Path) (transform : Matrix)
        (winding : WindRule) (mode : BlendMode) (opacity : ℚ),
      (Canvas.fill render c path transform winding mode opacity).translation
        = c.translation ∧
      (Canvas.fill render c path transform winding mode opacity).rect
        = c.rect) ∧
    (∀ (render : Render) (c : Canvas) (path : Path) (transform : Matrix)
        (width : ℚ) (cap : LineCap) (join : LineJoin) (miterlimit : ℚ)
        (dash : DashData) (mode : BlendMode) (opacity : ℚ),
      (Canvas.stroke render c path transform width cap join miterlimit dash
        mode opacity).translation = c.translation ∧
      (Canvas.stroke render c path transform width cap join miterlimit dash
        mode opacity).rect = c.rect) ∧
    (∀ (render : Render) (c source : Canvas) (mode : BlendMode) (opacity : ℚ),
      (Canvas.blend render c source mode opacity).translation = c.translation ∧
      (Canvas.blend render c source mode opacity).rect = c.rect) ∧
    (∀ (render : Render) (c : Canvas) (clip : Rect) (transform : Matrix),
      (Canvas.mask render c clip transform).translation = c.translation ∧
      (Canvas.mask render c clip transform).rect = c.rect) ∧
    (∀ c : Canvas,
      c.luminance.translation = c.translation ∧ c.luminance.rect = c.rect) := by
  refine ⟨?_, ?_, ?_, ?_, ?_, ?_, ?_, ?_, ?_, ?_, ?_⟩
  · intro data w h s
    refine ⟨rfl, rfl, ?_⟩
    simp only [Canvas.ofData, Matrix.apply, Matrix.identity, Prod.mk.injEq]
    constructor <;> ring
  · intro x y w h
    refine ⟨rfl, rfl, ?_⟩
    simp only [Canvas.ofInts, Matrix.apply, Matrix.translate, Prod.mk.injEq]
    constructor <;> ring
  · exact fun c color => ⟨rfl, rfl⟩
  · exact fun c x1 y1 x2 y2 stops spread transform => ⟨rfl, rfl⟩
  · exact fun c cx cy r fx fy stops spread transform => ⟨rfl, rfl⟩
  · exact fun c type transform => ⟨rfl, rfl⟩
  · exact fun render c path transform winding mode opacity => ⟨rfl, rfl⟩
  · exact fun render c path transform width cap join miterlimit dash mode
      opacity => ⟨rfl, rfl⟩
  · exact fun render c source mode opacity => ⟨rfl, rfl⟩
  · exact fun render c clip transform => ⟨rfl, rfl⟩
  · exact fun c => ⟨rfl, rfl⟩

/-- C5: both fill and stroke set the rasterizer's transform to the
composition of the caller's transform with the canvas's internal
translation, applied caller-transform-first: the matrix set is
`multiply(callerMatrix, translation)` and applying it to any point first
applies the caller transform, then the translation. -/
theorem claim_C5_transform_composition (render : Render) (c : Canvas)
    (path : Path) (transform : Matrix) (winding : WindRule)
    (mode : BlendMode) (fillOpacity : ℚ) (width : ℚ) (cap : LineCap)
    (join : LineJoin) (miterlimit : ℚ) (dash : DashData)
    (strokeOpacity : ℚ) (p : ℚ × ℚ) :
    (Canvas.fill render c path transform winding mode fillOpacity).pluto.matrix
      = Matrix.multiply (to_plutovg_matrix transform) c.translation ∧
    (Canvas.stroke render c path transform width cap join miterlimit dash
        mode strokeOpacity).pluto.matrix
      = Matrix.multiply (to_plutovg_matrix transform) c.translation ∧
    ((Canvas.fill render c path transform winding mode
        fillOpacity).pluto.matrix).apply p
      = c.translation.apply ((to_plutovg_matrix transform).apply p) ∧
    ((Canvas.stroke render c path transform width cap join miterlimit dash
        mode strokeOpacity).pluto.matrix).apply p
      = c.translation.apply ((to_plutovg_matrix transform).apply p) :=
  ⟨rfl, rfl,
   Matrix.multiply_apply (to_plutovg_matrix transform) c.translation p,
   Matrix.multiply_apply (to_plutovg_matrix transform) c.translation p⟩

/-- C2: the mask fill (as configured by `Canvas::mask`: even-odd over the
canvas rect and the transformed clip rect, transparent color, Src
operator, zero opacity, CTM = translation) leaves every point strictly
inside the transformed clip rectangle (and inside the canvas region,
where all surface pixels live) bit-for-bit unchanged, and sets every
point strictly outside the transformed clip rectangle (and inside the
canvas region) to the fully transparent value 0. -/
theorem claim_C2_mask_effect (translation : Matrix) (rect clip : Rect)
    (transform : Matrix) (old : ℚ × ℚ → Nat) (p : ℚ × ℚ) :
    (TRect.Contains
        ⟨Matrix.multiply (to_plutovg_matrix transform) translation, clip⟩ p →
      TRect.Contains ⟨translation, rect⟩ p →
      maskEffect translation rect clip transform old p = old p) ∧
    (TRect.StrictlyOutside
        ⟨Matrix.multiply (to_plutovg_matrix transform) translation, clip⟩ p →
      TRect.Contains ⟨translation, rect⟩ p →
      maskEffect translation rect clip transform old p = 0) := by
  constructor
  · intro hclip hcanvas
    unfold maskEffect fillSrcEvenOdd evenOddCount
    have h1 : decide (TRect.Contains ⟨translation, rect⟩ p) = true :=
      decide_eq_true hcanvas
    have h2 : decide (TRect.Contains
        ⟨Matrix.multiply (to_plutovg_matrix transform) translation, clip⟩ p)
        = true := decide_eq_true hclip
    simp [List.countP_cons, h1, h2]
  · intro hout hcanvas
    have hnc := TRect.not_contains_of_strictlyOutside _ p hout
    unfold maskEffect fillSrcEvenOdd evenOddCount
    have h1 : decide (TRect.Contains ⟨translation, rect⟩ p) = true :=
      decide_eq_true hcanvas
    have h2 : decide (TRect.Contains
        ⟨Matrix.multiply (to_plutovg_matrix transform) translation, clip⟩ p)
        = false := decide_eq_false hnc
    simp [List.countP_cons, h1, h2]

/-- C6: whenever a coverage-buffer pixel has non-zero coverage c and its
destination position is inside the surface bounds, the blit overwrites
the destination packed pixel's four bytes with blue = green = red =
255 − c and alpha = 255, discarding the prior content; when c is zero or
the destination is out of bounds, the iteration is a no-op and an
in-bounds zero-coverage pixel's destination bytes are left untouched by
the whole blit (and the routine is total — no error). -/
theorem claim_C6_text_blit (cov : Nat → Nat → Nat) (width height : Int)
    (wc hc : Nat) (round_x round_y : Int) (d : Nat → Nat) (i j : Nat)
    (hi : i < hc) (hj : j < wc) :
    (cov i j ≠ 0 → 0 ≤ (i : Int) + round_y → (i : Int) + round_y < height →
      0 ≤ (j : Int) + round_x → (j : Int) + round_x < width →
      textBlit cov width height wc hc round_x round_y d
          (blitIndex width.toNat ((i : Int) + round_y).toNat
            ((j : Int) + round_x).toNat) = 255 - cov i j ∧
      textBlit cov width height wc hc round_x round_y d
          (blitIndex width.toNat ((i : Int) + round_y).toNat
            ((j : Int) + round_x).toNat + 1) = 255 - cov i j ∧
      textBlit cov width height wc hc round_x round_y d
          (blitIndex width.toNat ((i : Int) + round_y).toNat
            ((j : Int) + round_x).toNat + 2) = 255 - cov i j ∧
      textBlit cov width height wc hc round_x round_y d
          (blitIndex width.toNat ((i : Int) + round_y).toNat
            ((j : Int) + round_x).toNat + 3) = 255) ∧
    (blitSkip cov width height round_x round_y i j →
      textBlitStep cov width height round_x round_y d i j = d) ∧
    (cov i j = 0 → 0 ≤ (i : Int) + round_y → (i : Int) + round_y < height →
      0 ≤ (j : Int) + round_x → (j : Int) + round_x < width →
      ∀ m, m < 4 →
        textBlit cov width height wc hc round_x round_y d
          (blitIndex width.toNat ((i : Int) + round_y).toNat
            ((j : Int) + round_x).toNat + m)
        = d (blitIndex width.toNat ((i : Int) + round_y).toNat
            ((j : Int) + round_x).toNat + m)) := by
  refine ⟨?_, ?_, ?_⟩
  · intro hc0 h1 h2 h3 h4
    have hns : ¬ blitSkip cov width height round_x round_y i j := by
      unfold blitSkip
      push_neg
      exact ⟨hc0, h1, h2, h3, h4⟩
    have hidx := blitStep_index_eq cov width height round_x round_y i j hns
    have hw := blitStep_writes cov width height round_x round_y d i j hns
    rw [hidx] at hw
    set B := blitIndex width.toNat ((i : Int) + round_y).toNat
      ((j : Int) + round_x).toNat with hB
    refine ⟨?_, ?_, ?_, ?_⟩
    · rw [textBlit_eq_step_of_touches cov width height wc hc round_x round_y
        d i j B hi hj ⟨hns, by rw [hidx]; omega⟩]
      exact hw.1
    · rw [textBlit_eq_step_of_touches cov width height wc hc round_x round_y
        d i j (B + 1) hi hj ⟨hns, by rw [hidx]; omega⟩]
      exact hw.2.1
    · rw [textBlit_eq_step_of_touches cov width height wc hc round_x round_y
        d i j (B + 2) hi hj ⟨hns, by rw [hidx]; omega⟩]
      exact hw.2.2.1
    · rw [textBlit_eq_step_of_touches cov width height wc hc round_x round_y
        d i j (B + 3) hi hj ⟨hns, by rw [hidx]; omega⟩]
      exact hw.2.2.2
  · intro hs
    unfold textBlitStep
    rw [if_pos hs]
  · intro hc0 h1 h2 h3 h4 m hm
    set B := blitIndex width.toNat ((i : Int) + round_y).toNat
      ((j : Int) + round_x).toNat with hB
    have hall : ∀ i' ∈ List.range hc, ∀ j' ∈ List.range wc,
        ¬ blitTouches cov width height round_x round_y i' j' (B + m) := by
      intro i' _ j' _ ht
      obtain ⟨hns', hk'⟩ := ht
      rw [blitStep_index_eq cov width height round_x round_y i' j' hns'] at hk'
      have hb' := hns'
      unfold blitSkip at hb'
      push_neg at hb'
      obtain ⟨hcov', hy0', hyh', hx0', hxw'⟩ := hb'
      have hpx : ((j : Int) + round_x).toNat < width.toNat := by omega
      have hpx' : ((j' : Int) + round_x).toNat < width.toNat := by omega
      have heq := blitIndex_inj width.toNat
        ((i' : Int) + round_y).toNat ((j' : Int) + round_x).toNat
        ((i : Int) + round_y).toNat ((j : Int) + round_x).toNat (B + m)
        hpx' hpx ⟨hk'.1, hk'.2⟩ ⟨by omega, by omega⟩
      have hii : i' = i := by omega
      have hjj : j' = j := by omega
      subst hii
      subst hjj
      exact hcov' hc0
    unfold textBlit
    exact blitGrid_untouched cov width height round_x round_y wc (B + m)
      (List.range hc) d hall

theorem claim_C6_text_blit_witness :
    textBlit (fun _ j => if j = 0 then 200 else 0) 2 1 2 1 0 0
      (fun _ => 9) 0 = 55 ∧
    textBlit (fun _ j => if j = 0 then 200 else 0) 2 1 2 1 0 0
      (fun _ => 9) 1 = 55 ∧
    textBlit (fun _ j => if j = 0 then 200 else 0) 2 1 2 1 0 0
      (fun _ => 9) 2 = 55 ∧
    textBlit (fun _ j => if j = 0 then 200 else 0) 2 1 2 1 0 0
      (fun _ => 9) 3 = 255 ∧
    textBlit (fun _ j => if j = 0 then 200 else 0) 2 1 2 1 0 0
      (fun _ => 9) 4 = 9 ∧
    textBlit (fun _ j => if j = 0 then 200 else 0) 2 1 2 1 0 0
      (fun _ => 9) 7 = 9 := by
  have h1 := (claim_C6_text_blit (fun _ j => if j = 0 then 200 else 0)
    2 1 2 1 0 0 (fun _ => 9) 0 0 (by decide) (by decide)).1
    (by decide) (by decide) (by decide) (by decide) (by decide)
  have h3 := (claim_C6_text_blit (fun _ j => if j = 0 then 200 else 0)
    2 1 2 1 0 0 (fun _ => 9) 0 1 (by decide) (by decide)).2.2
    (by decide) (by decide) (by decide) (by decide) (by decide)
  exact ⟨h1.1, h1.2.1, h1.2.2.1, h1.2.2.2, h3 0 (by decide), h3 3 (by decide)⟩

/-- C8: the code evaluated on its failure paths: any FreeType failure in
`Canvas::text` (font load, face creation, size setup, or glyph load)
makes the routine call `exit(1)` — it terminates the process and never
produces a recoverable (non-terminating) outcome for its caller. -/
theorem claim_C8_text_error_terminates
    (initError newFaceError setCharSizeError : Int)
    (loadCharErrors : List Int)
    (h : initError ≠ 0 ∨ newFaceError ≠ 0 ∨ setCharSizeError ≠ 0 ∨
      loadCharErrors.any (fun e => e != 0) = true) :
    textFtErrorPolicy initError newFaceError setCharSizeError loadCharErrors
      = .exited 1 ∧
    textFtErrorPolicy initError newFaceError setCharSizeError loadCharErrors
      ≠ .proceeded := by
  unfold textFtErrorPolicy
  split_ifs with h1 h2 h3 h4
  · exact ⟨rfl, by decide⟩
  · exact ⟨rfl, by decide⟩
  · exact ⟨rfl, by decide⟩
  · exact ⟨rfl, by decide⟩
  · rcases h with h | h | h | h
    · exact absurd h h1
    · exact absurd h h2
    · exact absurd h h3
    · exact absurd h (by simpa using h4)

theorem claim_C8_text_error_terminates_witness :
    textFtErrorPolicy 0 1 0 [] = .exited 1 ∧
    textFtErrorPolicy 0 1 0 [] ≠ .proceeded :=
  claim_C8_text_error_terminates 0 1 0 [] (Or.inr (Or.inl (by decide)))

/-- C10 counterexample: on a 1-pixel-wide, 1-row surface with stride 8
(≠ 4·width = 4) every destination position's blit byte offset equals the
stride-layout byte offset, and the whole blit writes exactly the
stride-layout bytes of pixel (0,0) — refuting "addresses different bytes
whenever stride differs from 4·width". -/
theorem claim_C10_counterexample :
    (8 : Nat) ≠ 4 * 1 ∧
    (∀ py, py < 1 → ∀ px, px < 1 →
      blitIndex 1 py px = strideIndex 8 py px) ∧
    (∀ k, k < 8 →
      textBlit (fun _ _ => 255) 1 1 1 1 0 0 (fun _ => 7) k
        = if k < 4 then (if k = 3 then 255 else 0) else 7) := by
  decide

theorem blitIndex_eq_strideIndex_iff (width stride py px : Nat) :
    blitIndex width py px = strideIndex stride py px ↔
      stride = 4 * width ∨ py = 0 := by
  unfold blitIndex strideIndex
  constructor
  · intro h
    by_cases hpy : py = 0
    · exact Or.inr hpy
    · left
      have h2 : py * width * 4 + px * 4 = py * stride + px * 4 := by
        calc py * width * 4 + px * 4 = (py * width + px) * 4 := by ring
        _ = py * stride + px * 4 := h
      have h3 : py * (width * 4) = py * stride := by
        have h4 := Nat.add_right_cancel h2
        calc py * (width * 4) = py * width * 4 := by ring
        _ = py * stride := h4
      have h5 := Nat.eq_of_mul_eq_mul_left (Nat.pos_of_ne_zero hpy) h3
      omega
  · rintro (h | h)
    · subst h
      ring
    · subst h
      ring

/-- C10 amended: the blit computes each destination byte offset as
((i + round_y) * width + (j + round_x)) * 4 from the pixel width
(`blitIndex`), not the row stride; that offset equals the stride-layout
offset of the destination pixel iff stride = 4·width or the destination
row is row 0 — so rows beyond the first are mis-addressed exactly when
stride ≠ 4·width. -/
theorem claim_C10_amended (cov : Nat → Nat → Nat)
    (width height round_x round_y : Int) (stride : Nat) (i j : Nat)
    (hns : ¬ blitSkip cov width height round_x round_y i j) :
    ((((i : Int) + round_y) * width + ((j : Int) + round_x)) * 4).toNat
      = blitIndex width.toNat ((i : Int) + round_y).toNat
          ((j : Int) + round_x).toNat ∧
    (blitIndex width.toNat ((i : Int) + round_y).toNat
        ((j : Int) + round_x).toNat
      = strideIndex stride ((i : Int) + round_y).toNat
          ((j : Int) + round_x).toNat ↔
      stride = 4 * width.toNat ∨ ((i : Int) + round_y).toNat = 0) :=
  ⟨blitStep_index_eq cov width height round_x round_y i j hns,
   blitIndex_eq_strideIndex_iff width.toNat stride
     ((i : Int) + round_y).toNat ((j : Int) + round_x).toNat⟩

theorem claim_C10_amended_witness :
    (((((0 : Nat) : Int) + 1) * 2 + (((0 : Nat) : Int) + 0)) * 4).toNat
      = blitIndex 2 1 0 ∧
    (blitIndex 2 1 0 = strideIndex 8 1 0 ↔ (8 : Nat) = 4 * 2 ∨ (1 : Nat) = 0) :=
  claim_C10_amended (fun _ _ => 1) 2 3 0 1 8 0 0 (by decide)

theorem claim_C2_mask_effect_witness :
    maskEffect Matrix.identity ⟨0, 0, 4, 4⟩ ⟨1, 1, 2, 2⟩ Matrix.identity
      (fun _ => 7) (2, 2) = 7 ∧
    maskEffect Matrix.identity ⟨0, 0, 4, 4⟩ ⟨1, 1, 2, 2⟩ Matrix.identity
      (fun _ => 7) (1/2, 1/2) = 0 := by
  constructor
  · refine (claim_C2_mask_effect Matrix.identity ⟨0, 0, 4, 4⟩ ⟨1, 1, 2, 2⟩
      Matrix.identity (fun _ => 7) (2, 2)).1 ?_ ?_
    · refine ⟨by norm_num [TRect.det, Matrix.multiply, to_plutovg_matrix,
        Matrix.identity], ?_⟩
      norm_num [TRect.pullback, TRect.det, Rect.StrictInside,
        Matrix.multiply, to_plutovg_matrix, Matrix.identity]
    · refine ⟨by norm_num [TRect.det, Matrix.identity], ?_⟩
      norm_num [TRect.pullback, TRect.det, Rect.StrictInside, Matrix.identity]
  · refine (claim_C2_mask_effect Matrix.identity ⟨0, 0, 4, 4⟩ ⟨1, 1, 2, 2⟩
      Matrix.identity (fun _ => 7) (1/2, 1/2)).2 ?_ ?_
    · refine ⟨by norm_num [TRect.det, Matrix.multiply, to_plutovg_matrix,
        Matrix.identity], ?_⟩
      norm_num [TRect.pullback, TRect.det, Matrix.multiply,
        to_plutovg_matrix, Matrix.identity]
    · refine ⟨by norm_num [TRect.det, Matrix.identity], ?_⟩
      norm_num [TRect.pullback, TRect.det, Rect.StrictInside, Matrix.identity]

end LunaSvg
